import Mathlib

/-!
Verification of the reading repository against its specification.

The embedding covers src/FixSpanishOCR.py: the text cleaner
clean_spanish_text (its replacement table, word regex fixes, embedded digit
fix, standalone number drop and spacing repairs), the write discipline of
process_file, and the batch loop of main. Strings are modelled as lists of
characters; each regex substitution of the source is embedded as a dedicated
left-to-right scanner with the same match and replacement behaviour, keeping
the previous original character where the pattern needs a word boundary. The
scanners recurse structurally on a fuel argument equal to the length of the
text, which is always enough because every step consumes at least one
character; this keeps every definition computable by kernel reduction.
Character classes are modelled over the ASCII and Latin-1 repertoire, which
covers the source tables and every input below. The Body/Footnote classifier
of the specification has no code in src, so it is modelled from the
specification text, as marked on each of its definitions.
-/

/-- ASCII letter test, as in the character class [A-Za-z]. -/
def isAsciiLetter (c : Char) : Bool :=
  (decide (65 ≤ c.toNat) && decide (c.toNat ≤ 90)) || (decide (97 ≤ c.toNat) && decide (c.toNat ≤ 122))

/-- Lowercase an ASCII uppercase letter, identity otherwise. -/
def lowerA (c : Char) : Char :=
  if decide (65 ≤ c.toNat) && decide (c.toNat ≤ 90) then Char.ofNat (c.toNat + 32) else c

/-- Word character in the sense of the regex word class, over the ASCII and
Latin-1 repertoire that the source tables and inputs use. -/
def pyIsWord (c : Char) : Bool :=
  isAsciiLetter c || c.isDigit || (c == '_') ||
  (c.toNat == 0xAA) || (c.toNat == 0xB5) || (c.toNat == 0xBA) ||
  (decide (0xC0 ≤ c.toNat) && decide (c.toNat ≤ 0xFF) && !(c.toNat == 0xD7) && !(c.toNat == 0xF7))

/-- Alphabetic character in the sense of str.isalpha, same repertoire. -/
def pyIsAlpha (c : Char) : Bool :=
  isAsciiLetter c ||
  (c.toNat == 0xAA) || (c.toNat == 0xB5) || (c.toNat == 0xBA) ||
  (decide (0xC0 ≤ c.toNat) && decide (c.toNat ≤ 0xFF) && !(c.toNat == 0xD7) && !(c.toNat == 0xF7))

/-- Whitespace in the sense of the regex whitespace class and str.strip. -/
def pyIsSpace (c : Char) : Bool :=
  (c == ' ') || (c == '\t') || (c == '\n') || (c.toNat == 13) || (c.toNat == 11) || (c.toNat == 12)

/-- Word test lifted to an optional neighbouring character; none means string edge. -/
def isWordB : Option Char → Bool
  | none => false
  | some c => pyIsWord c

/-- Alpha test lifted to an optional neighbouring character. -/
def isAlphaB : Option Char → Bool
  | none => false
  | some c => pyIsAlpha c

/-- Head of a list satisfies a predicate (false for the empty list). -/
def headIs (p : Char → Bool) : List Char → Bool
  | [] => false
  | c :: _ => p c

/-- Leading run of ASCII digits. -/
def digitsPre : List Char → List Char
  | [] => []
  | c :: rest => if c.isDigit then c :: digitsPre rest else []

/-- Numeric value of a digit string. -/
def natOfDigits (l : List Char) : Nat :=
  l.foldl (fun a c => a * 10 + (c.toNat - 48)) 0

/-- Does the first list occur at the start of the second one. -/
def startsWithL : List Char → List Char → Bool
  | [], _ => true
  | _ :: _, [] => false
  | k :: ks, c :: cs => (k == c) && startsWithL ks cs

/-- Fuelled scanner behind replaceL; every step consumes at least one
character, so fuel equal to the length of the text makes it total. -/
def replaceF (key val : List Char) : Nat → List Char → List Char
  | _, [] => []
  | 0, l => l
  | fuel + 1, c :: rest =>
    if startsWithL key (c :: rest) then
      val ++ replaceF key val fuel (List.drop (key.length - 1) rest)
    else
      c :: replaceF key val fuel rest

/-- Python str.replace on character lists: all non-overlapping occurrences,
scanned left to right. -/
def replaceL (key val l : List Char) : List Char := replaceF key val l.length l

/-- Python str.strip on a character list. -/
def stripL (l : List Char) : List Char :=
  ((l.dropWhile pyIsSpace).reverse.dropWhile pyIsSpace).reverse

/-- The ordered substring replacement table REPLACE_MAP of FixSpanishOCR.py
(dict iteration order; duplicate keys collapsed as Python collapses them). -/
def REPLACE_MAP : List (String × String) := [
  (("sefior"), ("señor")), (("sefiar"), ("señar")), (("seflora"), ("señora")), (("sefiora"), ("señora")),
  (("sefiore"), ("señore")), (("senor"), ("señor")), (("senora"), ("señora")),
  (("habfa"), ("había")), (("habia"), ("había")), (("debfa"), ("debía")), (("debfan"), ("debían")),
  (("debia"), ("debía")), (("parecia"), ("parecía")), (("parecid"), ("pareció")), (("estaba"), ("estaba")),
  (("duefio"), ("dueño")), (("afios"), ("años")), (("mfnimo"), ("mínimo")), (("mismo"), ("mismo")),
  (("Trépat"), ("Trépat")), (("Alix"), ("Alix")), (("Rose"), ("Rose")),
  (("est4s"), ("estás")), (("quiz4 "), ("quizás")), (("gird"), ("giró")), (("salidé"), ("salió")),
  (("miré "), ("miró ")), (("pensd"), ("pensó")), (("enderezd"), ("enderezó")), (("decidid"), ("decidió")),
  (("decidted"), ("decidió")), (("reaparecfa"), ("reaparecía")), (("acomodadora"), ("acomodadora")),
  (("tambien"), ("también")), (("subj"), ("subí")),
  (("mas "), ("más ")), (("mas,"), ("más,")), (("mas."), ("más.")),
  (("solo "), ("sólo ")), (("sólo "), ("sólo ")), (("asi"), ("así")),
  (("aun "), ("aún ")), (("aun,"), ("aún,")), (("aun."), ("aún."))
]

/-- Step 1 of clean_spanish_text: fold the replacement table over the text. -/
def applyReplaceMap (l : List Char) : List Char :=
  REPLACE_MAP.foldl (fun acc kv => replaceL kv.1.data kv.2.data acc) l

/-- Fuelled scanner behind fixFTilde. -/
def fixFTildeF : Nat → List Char → List Char
  | _, [] => []
  | 0, l => l
  | fuel + 1, c1 :: rest =>
    match rest with
    | 'f' :: c2 :: rest2 =>
      if isAsciiLetter c1 && ((c2 == 'o') || (c2 == 'a') || (c2 == 'i') || (c2 == 'e')) then
        c1 :: 'ñ' :: c2 :: fixFTildeF fuel rest2
      else c1 :: fixFTildeF fuel rest
    | _ => c1 :: fixFTildeF fuel rest

/-- First WORD_REGEX_FIXES pass: a letter, then the letter f, then one of
o a i e, rewritten to keep the outer letters and put an eñe for the f. -/
def fixFTilde (l : List Char) : List Char := fixFTildeF l.length l

/-- Case-insensitive match of an ASCII-lowercase pattern at the start of the text. -/
def ciPref : List Char → List Char → Bool
  | [], _ => true
  | _ :: _, [] => false
  | k :: ks, c :: cs => (lowerA c == k) && ciPref ks cs

/-- Fuelled scanner behind subWordCI. -/
def subWordCIF (w0 : Char) (ws repl : List Char) : Nat → Option Char → List Char → List Char
  | _, _, [] => []
  | 0, _, l => l
  | fuel + 1, prev, c :: rest =>
    if !(isWordB prev) && (lowerA c == w0) && ciPref ws rest && !(isWordB (List.drop ws.length rest).head?) then
      repl ++ subWordCIF w0 ws repl fuel (List.getLast? (c :: List.take ws.length rest)) (List.drop ws.length rest)
    else c :: subWordCIF w0 ws repl fuel (some c) rest

/-- One whole-word, case-insensitive regex substitution pass: the pattern is
the word w0 :: ws between word boundaries; every match is replaced by repl.
The scan keeps the previous original character for the left boundary test. -/
def subWordCI (w0 : Char) (ws repl : List Char) (l : List Char) : List Char :=
  subWordCIF w0 ws repl l.length none l

/-- Head test for the pattern se[f|r]ior, case-insensitive; the class holds
the literal bar character, as written in the source. -/
def senorHead : List Char → Bool
  | a1 :: a2 :: a3 :: a4 :: a5 :: a6 :: _ =>
    (lowerA a1 == 's') && (lowerA a2 == 'e') &&
    ((lowerA a3 == 'f') || (a3 == '|') || (lowerA a3 == 'r')) &&
    (lowerA a4 == 'i') && (lowerA a5 == 'o') && (lowerA a6 == 'r')
  | _ => false

/-- The optional suffix group (a|as|es)? of the señor fix, with the regex
backtracking order, each alternative checked against the right word boundary.
Returns the matched original characters, or none when the whole match fails. -/
def senorGroup : List Char → Option (List Char)
  | [] => some []
  | a :: r2 =>
    if lowerA a == 'a' then
      if !(isWordB r2.head?) then some [a]
      else
        match r2 with
        | s2 :: r3 => if (lowerA s2 == 's') && !(isWordB r3.head?) then some [a, s2] else none
        | [] => none
    else if lowerA a == 'e' then
      match r2 with
      | s2 :: r3 => if (lowerA s2 == 's') && !(isWordB r3.head?) then some [a, s2] else none
      | [] => none
    else if !(isWordB (some a)) then some []
    else none

/-- Fuelled scanner behind subSenor. -/
def subSenorF : Nat → Option Char → List Char → List Char
  | _, _, [] => []
  | 0, _, l => l
  | fuel + 1, prev, c1 :: rest =>
    if !(isWordB prev) && senorHead (c1 :: rest) then
      match senorGroup (List.drop 6 (c1 :: rest)) with
      | some g =>
        (("señor").data ++ g) ++
          subSenorF fuel (List.getLast? (List.take (6 + g.length) (c1 :: rest))) (List.drop (6 + g.length) (c1 :: rest))
      | none => c1 :: subSenorF fuel (some c1) rest
    else c1 :: subSenorF fuel (some c1) rest

/-- Last WORD_REGEX_FIXES pass: the se[f|r]ior(a|as|es)? word fix, replaced
by señor followed by the matched suffix group. -/
def subSenor (l : List Char) : List Char := subSenorF l.length none l

/-- EMBEDDED_DIGIT_MAP of the source. -/
def mapDigit : Char → Char
  | '4' => 'a'
  | '0' => 'o'
  | '6' => 'ó'
  | '1' => 'l'
  | c => c

/-- Step 3 of clean_spanish_text: the word-token pass together with
fix_embedded_digits. A digit 4 0 1 6 whose two original neighbours are word
characters is rewritten through the digit map; this is exactly the effect of
running the embedded-digit lookaround fix inside every maximal word token,
because a token-internal neighbour is a word character and the neighbours of
the token edges are not. -/
def fixEmbeddedF (prev : Option Char) : List Char → List Char
  | [] => []
  | c :: rest =>
    (if ((c == '4') || (c == '0') || (c == '1') || (c == '6')) && isWordB prev && isWordB rest.head? then
      mapDigit c
    else c) :: fixEmbeddedF (some c) rest

/-- Entry point of the embedded-digit pass. -/
def fixEmbeddedAll (l : List Char) : List Char := fixEmbeddedF none l

/-- The safety heuristic of the source with the same name (sans the leading
underscore): a matched number is dropped when its value is below 1000 and
neither neighbour is alphabetic. -/
def is_safe_to_drop_number (valDigits : List Char) (left right : Option Char) : Bool :=
  if decide (1000 ≤ natOfDigits valDigits) then false
  else !(isAlphaB left) && !(isAlphaB right)

/-- Fuelled scanner behind dropNums. -/
def dropNumsF : Nat → Option Char → List Char → List Char
  | _, _, [] => []
  | 0, _, l => l
  | fuel + 1, prev, c :: rest =>
    if !(isWordB prev) && c.isDigit && decide ((digitsPre rest).length + 1 ≤ 3) then
      -- a match attempt starts here; ds is the rest of the leading digit run
      (fun (ds : List Char) =>
        if (List.drop ds.length rest).head? == some ',' then
          (fun (ds2 : List Char) =>
            if !(ds2.isEmpty) && !(isWordB (List.drop (ds.length + 1 + ds2.length) rest).head?) then
              (if is_safe_to_drop_number ((c :: ds) ++ ds2) prev (List.drop (ds.length + 1 + ds2.length) rest).head? then []
               else (c :: ds) ++ ',' :: ds2) ++
              dropNumsF fuel ds2.getLast? (List.drop (ds.length + 1 + ds2.length) rest)
            else
              (if is_safe_to_drop_number (c :: ds) prev (some ',') then []
               else c :: ds) ++ dropNumsF fuel (some (List.getLastD ds c)) (List.drop ds.length rest))
            (digitsPre (List.drop (ds.length + 1) rest))
        else if !(isWordB (List.drop ds.length rest).head?) then
          (if is_safe_to_drop_number (c :: ds) prev (List.drop ds.length rest).head? then []
           else c :: ds) ++ dropNumsF fuel (some (List.getLastD ds c)) (List.drop ds.length rest)
        else c :: dropNumsF fuel (some c) rest)
        (digitsPre rest)
    else c :: dropNumsF fuel (some c) rest

/-- Step 4 of clean_spanish_text: the STANDALONE_NUM_RE substitution, one to
three digits with an optional comma group between word boundaries, each match
kept or dropped by the safety heuristic. -/
def dropNums (l : List Char) : List Char := dropNumsF l.length none l

/-- The punctuation class of SPACE_BEFORE_PUNCT_RE. -/
def puncts : List Char := [',', '.', ';', ':', '!', '?']

/-- Leading run of regex whitespace. -/
def spacesPre : List Char → List Char
  | [] => []
  | c :: rest => if pyIsSpace c then c :: spacesPre rest else []

/-- Fuelled scanner behind spaceBeforePunct. -/
def spaceBeforePunctF : Nat → List Char → List Char
  | _, [] => []
  | 0, l => l
  | fuel + 1, c :: rest =>
    if pyIsSpace c then
      (fun (after : List Char) =>
        if headIs (fun p => puncts.contains p) after then
          after.headD c :: spaceBeforePunctF fuel (List.drop ((spacesPre rest).length + 1) rest)
        else c :: spaceBeforePunctF fuel rest)
        (List.drop (spacesPre rest).length rest)
    else c :: spaceBeforePunctF fuel rest

/-- Step 5a: remove whitespace runs standing before a punctuation mark. -/
def spaceBeforePunct (l : List Char) : List Char := spaceBeforePunctF l.length l

/-- Space or tab, the class of MULTISPACE_RE. -/
def isSpTab (c : Char) : Bool := (c == ' ') || (c == '\t')

/-- Leading run of spaces and tabs. -/
def spTabPre : List Char → List Char
  | [] => []
  | c :: rest => if isSpTab c then c :: spTabPre rest else []

/-- Fuelled scanner behind collapseSpaceTab. -/
def collapseSpaceTabF : Nat → List Char → List Char
  | _, [] => []
  | 0, l => l
  | fuel + 1, c :: rest =>
    if isSpTab c && headIs isSpTab rest then
      ' ' :: collapseSpaceTabF fuel (List.drop (spTabPre rest).length rest)
    else c :: collapseSpaceTabF fuel rest

/-- Step 5b: collapse runs of two or more spaces or tabs to one space. -/
def collapseSpaceTab (l : List Char) : List Char := collapseSpaceTabF l.length l

/-- Leading run of plain spaces. -/
def spacesOnlyPre : List Char → List Char
  | [] => []
  | c :: rest => if c == ' ' then c :: spacesOnlyPre rest else []

/-- Fuelled scanner behind collapseSpaces. -/
def collapseSpacesF : Nat → List Char → List Char
  | _, [] => []
  | 0, l => l
  | fuel + 1, c :: rest =>
    if c == ' ' then ' ' :: collapseSpacesF fuel (List.drop (spacesOnlyPre rest).length rest)
    else c :: collapseSpacesF fuel rest

/-- Final space collapse: every run of spaces becomes one space. -/
def collapseSpaces (l : List Char) : List Char := collapseSpacesF l.length l

/-- The whole cleaning pipeline of clean_spanish_text, in source order:
replacement table, word regex fixes, embedded digit fix, standalone number
drop, spacing repairs, parenthesis spacing, final strip. -/
def cleanChars (l : List Char) : List Char :=
  let s1 := applyReplaceMap l
  let s2 := fixFTilde s1
  let s3 := subWordCI 'h' (("abia").data) (("había").data) s2
  let s4 := subWordCI 'd' (("ebia").data) (("debía").data) s3
  let s5 := subWordCI 'p' (("arecia").data) (("parecía").data) s4
  let s6 := subWordCI 'e' (("stas").data) (("estás").data) s5
  let s7 := subWordCI 'e' (("staba").data) (("estaba").data) s6
  let s8 := subSenor s7
  let s9 := fixEmbeddedAll s8
  let s10 := dropNums s9
  let s11 := spaceBeforePunct s10
  let s12 := collapseSpaceTab s11
  let s13 := collapseSpaces s12
  let s14 := replaceL ((" )").data) ((")").data) s13
  let s15 := replaceL (("( ").data) (("(").data) s14
  stripL s15

/-- clean_spanish_text of src/FixSpanishOCR.py. -/
def clean_spanish_text (s : String) : String :=
  if s.data = [] then s else String.mk (cleanChars s.data)

/-- The character of a decimal digit. -/
def digChar (i : Fin 10) : Char := Char.ofNat (48 + i.val)

/-- A flat file system: an association list from path to file content. -/
abbrev FS := List (String × String)

/-- Look a path up in the file system. -/
def fsGet : FS → String → Option String
  | [], _ => none
  | (q, w) :: rest, p => if q = p then some w else fsGet rest p

/-- Write a path (update in place, or append when absent). -/
def fsSet : FS → String → String → FS
  | [], p, v => [(p, v)]
  | (q, w) :: rest, p, v => if q = p then (p, v) :: rest else (q, w) :: fsSet rest p v

/-- Sequencing of fallible steps, propagating the raised error. -/
def exSeq {α β : Type} (x : Except String α) (f : α → Except String β) : Except String β :=
  match x with
  | Except.error e => Except.error e
  | Except.ok a => f a

/-- The read_text step of process_file over the model: a missing file raises. -/
def readFS (fs : FS) (path : String) : Except String String :=
  match fsGet fs path with
  | none => Except.error ("read")
  | some html => Except.ok html

/-- The write tail of process_file: when anything changed and this is not a
dry run, first copy the original to the sibling .bak path unless that backup
already exists, then write the new content over the original path. -/
def pfWrite (dry : Bool) (fs : FS) (path html : String) (r : Nat × String) : Except String (FS × Nat) :=
  if r.1 ≠ 0 ∧ dry = false then
    Except.ok
      (fsSet (if (fsGet fs (path ++ (".bak"))).isSome then fs else fsSet fs (path ++ (".bak")) html) path r.2,
       r.1)
  else Except.ok (fs, r.1)

/-- process_file of src/FixSpanishOCR.py over the file-system model: read the
file, run the soup transformation (the BeautifulSoup paragraph pass,
abstracted as a function from content to a changed count and new content, or
a raised error), then back up and write as pfWrite does. Returns the new file
system and the changed count. -/
def process_file (soup : String → Except String (Nat × String)) (dry : Bool) (fs : FS) (path : String) :
    Except String (FS × Nat) :=
  exSeq (readFS fs path) (fun html => exSeq (soup html) (fun r => pfWrite dry fs path html r))

/-- main of src/FixSpanishOCR.py over the model: process the files in order,
writing as it goes; an uncaught per-file error aborts the loop and surfaces,
leaving the file system as the prefix left it. -/
def runMain (soup : String → Except String (Nat × String)) (dry : Bool) :
    List String → FS → FS × Option String
  | [], fs => (fs, none)
  | f :: rest, fs =>
    match process_file soup dry fs f with
    | Except.error e => (fs, some e)
    | Except.ok (fs2, _) => runMain soup dry rest fs2

/-- A batch where the first file cleans successfully and the second fails. -/
def soupFail : String → Except String (Nat × String) :=
  fun h => if h = ("A") then Except.ok (1, ("A2")) else Except.error ("parse")

/-- Initial file system for the failing batch. -/
def fs7 : FS := [(("a.html"), ("A")), (("b.html"), ("BAD"))]

/-- File system after the successful first file of the failing batch. -/
def fs7mid : FS := [(("a.html"), ("A2")), (("b.html"), ("BAD")), (("a.html.bak"), ("A"))]

/-- Soup transformation that always reports one change. -/
def soup10 : String → Except String (Nat × String) :=
  fun h => Except.ok (1, h ++ ("!"))

/-- File system that already carries a backup. -/
def fs10 : FS := [(("a.html"), ("X")), (("a.html.bak"), ("B0"))]

/-- Modelled from the spec: the Line record of section 3 of the
specification; the OCR pipeline data model is absent from src, which only
holds the HTML fix-up scripts. -/
structure Line where
  text : String
  x : Int
  y : Int
  width : Int
  height : Int
deriving DecidableEq

/-- Insert into a sorted list of heights. -/
def insertLe (x : Int) : List Int → List Int
  | [] => [x]
  | y :: ys => if x ≤ y then x :: y :: ys else y :: insertLe x ys

/-- Insertion sort for heights. -/
def sortInts : List Int → List Int
  | [] => []
  | x :: xs => insertLe x (sortInts xs)

/-- Modelled from the spec: median line height, with the stated conventions
for the empty and one-element pages. -/
def medianHeight (hs : List Int) : Int := (sortInts hs).getD (hs.length / 2) 0

/-- Trimmed text is a non-empty run of digits only. -/
def isNumericTrim (t : String) : Bool :=
  !(stripL t.data).isEmpty && (stripL t.data).all (fun c => c.isDigit)

/-- Modelled from the spec: trimmed text is a standalone small integer of one
to four digits and nothing else. -/
def isPageNum (t : String) : Bool :=
  !(stripL t.data).isEmpty && decide ((stripL t.data).length ≤ 4) && (stripL t.data).all (fun c => c.isDigit)

/-- Modelled from the spec: the text begins with a short numeric marker, then
a delimiter (a dot or a closing parenthesis), then whitespace. -/
def numMarkerB (l : List Char) : Bool :=
  !(digitsPre l).isEmpty && decide ((digitsPre l).length ≤ 3) &&
  (match List.drop (digitsPre l).length l with
   | d :: rest => ((d == '.') || (d == ')')) && headIs pyIsSpace rest
   | [] => false)

/-- Modelled from the spec: the footnote cutoff height of the page,
page height times one minus the configured bottom fraction. -/
def footnoteCutoff (ph : Int) (bottomFrac : ℚ) : ℚ := (ph : ℚ) * (1 - bottomFrac)

/-- Modelled from the spec: the drop test of the classifier, section 4.2. A
line is dropped when it is a standalone page number, or it sits at or below
the cutoff and either starts with a numeric marker or is small against the
median height. -/
def dropLineB (cutoff smallCut : ℚ) (l : Line) : Bool :=
  isPageNum l.text ||
  (decide (cutoff ≤ (l.y : ℚ)) && (numMarkerB l.text.data || decide ((l.height : ℚ) < smallCut)))

/-- Modelled from the spec: classify of section 4.2, absent from src; keeps
exactly the lines the drop test rejects, in their original order. -/
def classify (lines : List Line) (ph : Int) (bottomFrac smallFac : ℚ) : List Line :=
  lines.filter (fun l =>
    !(dropLineB (footnoteCutoff ph bottomFrac)
      ((medianHeight (lines.map (fun x => x.height)) : ℚ) * smallFac) l))

/-- A body line in the sense of claim C8: trimmed text not numeric, and above
the footnote cutoff. -/
def bodyLineB (ph : Int) (bottomFrac : ℚ) (l : Line) : Bool :=
  !(isNumericTrim l.text) && decide ((l.y : ℚ) < footnoteCutoff ph bottomFrac)

-- helper lemmas

theorem exSeq_error {α β : Type} (e : String) (f : α → Except String β) :
    exSeq (Except.error e) f = Except.error e := rfl

theorem exSeq_ok {α β : Type} (a : α) (f : α → Except String β) :
    exSeq (Except.ok a) f = f a := rfl

theorem readFS_none (fs : FS) (path : String) (hg : fsGet fs path = none) :
    readFS fs path = Except.error ("read") := by
  unfold readFS; rw [hg]

theorem readFS_some (fs : FS) (path html : String) (hg : fsGet fs path = some html) :
    readFS fs path = Except.ok html := by
  unfold readFS; rw [hg]

theorem fsGet_fsSet_self (fs : FS) (p v : String) : fsGet (fsSet fs p v) p = some v := by
  induction fs with
  | nil => simp [fsSet, fsGet]
  | cons hd tl ih =>
    obtain ⟨q, w⟩ := hd
    by_cases h : q = p
    · simp [fsSet, fsGet, h]
    · simp [fsSet, fsGet, h, ih]

theorem fsGet_fsSet_ne (fs : FS) (p q v : String) (h : q ≠ p) :
    fsGet (fsSet fs p v) q = fsGet fs q := by
  induction fs with
  | nil => simp [fsSet, fsGet, Ne.symm h]
  | cons hd tl ih =>
    obtain ⟨a, b⟩ := hd
    by_cases h2 : a = p
    · subst h2
      simp [fsSet, fsGet, Ne.symm h]
    · simp [fsSet, fsGet, h2, ih]

theorem bak_ne (p : String) : p ≠ p ++ (".bak") := by
  intro h
  have h2 := congrArg String.length h
  rw [String.length_append] at h2
  have h3 : ((".bak") : String).length = 4 := rfl
  omega

theorem isPageNum_le_isNumericTrim (t : String) (h : isPageNum t = true) :
    isNumericTrim t = true := by
  unfold isPageNum at h
  unfold isNumericTrim
  simp only [Bool.and_eq_true] at h ⊢
  exact ⟨h.1.1, h.2⟩

-- claim theorems

/-- C1 (code_bug): the text cleaner is not idempotent. On the input m4s x a
single pass yields mas x (the embedded digit fix runs after the replacement
table, so the accent entry for mas cannot fire any more), while a second pass
yields más x; the claim requires the two to be equal. This theorem evaluates
the code at the failing input. -/
theorem clean_m4s_two_passes :
    clean_spanish_text ("m4s x") = ("mas x") ∧
    clean_spanish_text (clean_spanish_text ("m4s x")) = ("más x") ∧
    clean_spanish_text (clean_spanish_text ("m4s x")) ≠ clean_spanish_text ("m4s x") := by
  decide

/-- C2 counterexample: the cleaner outputs a character that does not occur in
its input, so the claim that no character is substituted or inserted fails. -/
theorem clean_introduces_enye :
    ('ñ' ∈ (clean_spanish_text ("sefior")).data) ∧ ('ñ' ∉ ("sefior").data) := by
  decide

/-- C2 (corrected, amended claim): the cleaner substitutes characters by its
lexical replacement tables; the OCR garble sefior is rewritten to señor. -/
theorem clean_sefior_to_senor : clean_spanish_text ("sefior") = ("señor") := by
  decide

/-- C3 (code_bug): a 4-digit year is not preserved. The embedded-digit fix
matches a digit between word characters, and digits are word characters, so
the 4 of 1942 sits between 9 and 2 and is rewritten to the letter a; the
claim (and the comment of the source) requires the year to pass unchanged.
This theorem evaluates the code at the failing input. -/
theorem clean_mangles_year :
    clean_spanish_text ("in the year 1942 they") = ("in the year 19a2 they") ∧
    (("in the year 19a2 they") : String) ≠ ("in the year 1942 they") := by
  decide

/-- C4 counterexample: the bracketed marker input does not normalize to the
claimed output, because only the digits are removed, not the brackets. -/
theorem clean_bracket_marker_differs :
    clean_spanish_text ("great power [12] decided") ≠ ("great power decided") := by
  decide

/-- C4 (corrected, amended claim): cleaning great power [12] decided removes
the digits of the inline marker but keeps the enclosing brackets, and no
doubled space arises, so the result is great power [] decided. -/
theorem clean_bracket_marker_result :
    clean_spanish_text ("great power [12] decided") = ("great power [] decided") := by
  decide

/-- C5 counterexample: the output of the cleaner on the hyphen-newline split
still contains both the hyphen and the newline, so the claimed de-hyphenation
does not happen. -/
theorem clean_keeps_hyphen_newline :
    ('-' ∈ (clean_spanish_text ("civi-\nlización")).data) ∧
    ('\n' ∈ (clean_spanish_text ("civi-\nlización")).data) := by
  decide

/-- C5 (corrected, amended claim): clean_spanish_text performs no
de-hyphenation at all; the split word civi-lización with an embedded newline
is returned exactly as given. -/
theorem clean_hyphen_newline_unchanged :
    clean_spanish_text ("civi-\nlización") = ("civi-\nlización") := by
  decide

/-- C6 counterexample: a standalone 4-digit line is not dropped, against the
claim that every 1-4 digit standalone number line is removed; the standalone
number pattern of the source matches at most three digits. -/
theorem clean_keeps_four_digit_line :
    clean_spanish_text ("1234") = ("1234") ∧ (("1234") : String) ≠ ("") := by
  decide

/-- C6 (corrected, amended claim): every line whose trimmed text is a
standalone integer of one or two digits is dropped by the cleaner, which
returns the empty string on it; in particular the line 42. -/
theorem clean_drops_short_number_lines :
    ∀ (a b : Fin 10),
      clean_spanish_text (String.mk [digChar a]) = ("") ∧
      clean_spanish_text (String.mk [digChar a, digChar b]) = ("") := by
  decide

/-- C6 witness: the theorem applied at the digits 4 and 2. -/
theorem clean_drops_short_number_lines_witness :
    clean_spanish_text (String.mk [digChar 4, digChar 2]) = ("") :=
  (clean_drops_short_number_lines 4 2).2

/-- C7 counterexample: in the failing two-file batch the run ends with an
error, yet the first file has already been rewritten, so the outputs are not
unchanged on error and the run is not all-or-nothing. -/
theorem runMain_writes_before_error :
    (runMain soupFail false [("a.html"), ("b.html")] fs7).2 = some ("parse") ∧
    fsGet (runMain soupFail false [("a.html"), ("b.html")] fs7).1 ("a.html") ≠ fsGet fs7 ("a.html") := by
  decide

/-- C7 (corrected, amended claim): the batch run writes per file; when a later
file fails, the run stops and the file system is exactly as the successful
prefix left it, with each already-processed changed file rewritten. -/
theorem runMain_error_keeps_prior_writes (soup : String → Except String (Nat × String)) (dry : Bool)
    (f : String) (ys : List String) (e : String) :
    ∀ (xs : List String) (fs fsp : FS),
      runMain soup dry xs fs = (fsp, none) →
      process_file soup dry fsp f = Except.error e →
      runMain soup dry (xs ++ f :: ys) fs = (fsp, some e) := by
  intro xs
  induction xs with
  | nil =>
    intro fs fsp hpre herr
    simp [runMain] at hpre
    subst hpre
    simp [runMain, herr]
  | cons x xt ih =>
    intro fs fsp hpre herr
    rw [List.cons_append]
    cases hp : process_file soup dry fs x with
    | error e2 =>
      simp only [runMain, hp] at hpre
      exact absurd hpre (by simp)
    | ok r =>
      obtain ⟨fs1, n⟩ := r
      simp only [runMain, hp] at hpre ⊢
      exact ih fs1 fsp hpre herr

/-- C7 witness: the amended theorem applied to the concrete failing batch. -/
theorem runMain_error_keeps_prior_writes_witness :
    runMain soupFail false ([("a.html")] ++ ("b.html") :: []) fs7 = (fs7mid, some ("parse")) :=
  runMain_error_keeps_prior_writes soupFail false ("b.html") [] ("parse") [("a.html")] fs7 fs7mid
    (by rfl) (by rfl)

/-- C8 (confirmed, spec-modelled): classify never drops a line whose trimmed
text is non-numeric and which lies above the footnote cutoff; all such lines
appear in the output, in their original order. -/
theorem classify_keeps_body_lines (lines : List Line) (ph : Int) (bottomFrac smallFac : ℚ) :
    (∀ l ∈ lines, bodyLineB ph bottomFrac l = true → l ∈ classify lines ph bottomFrac smallFac) ∧
    List.Sublist (lines.filter (bodyLineB ph bottomFrac)) (classify lines ph bottomFrac smallFac) := by
  have key : ∀ l : Line, bodyLineB ph bottomFrac l = true →
      (!(dropLineB (footnoteCutoff ph bottomFrac)
        ((medianHeight (lines.map (fun x => x.height)) : ℚ) * smallFac) l)) = true := by
    intro l hb
    unfold bodyLineB at hb
    simp only [Bool.and_eq_true, Bool.not_eq_true'] at hb
    obtain ⟨hnum, hy⟩ := hb
    have h1 : isPageNum l.text = false := by
      cases hp : isPageNum l.text with
      | false => rfl
      | true => rw [isPageNum_le_isNumericTrim l.text hp] at hnum; exact absurd hnum (by simp)
    have h2 : decide (footnoteCutoff ph bottomFrac ≤ (l.y : ℚ)) = false := by
      rw [decide_eq_false_iff_not]
      exact not_le.mpr (of_decide_eq_true hy)
    unfold dropLineB
    rw [h1, h2]
    rfl
  constructor
  · intro l hl hb
    exact List.mem_filter.mpr ⟨hl, key l hb⟩
  · exact List.monotone_filter_right _ (fun l hb => key l hb)

/-- C8 witness: a one-line page with a body line above the cutoff; classify
keeps it with the recommended configuration values. -/
theorem classify_keeps_body_lines_witness :
    (⟨("Hola mundo"), 0, 10, 50, 20⟩ : Line) ∈
      classify [⟨("Hola mundo"), 0, 10, 50, 20⟩] 100 (22/100) (7/10) :=
  (classify_keeps_body_lines [⟨("Hola mundo"), 0, 10, 50, 20⟩] 100 (22/100) (7/10)).1
    (⟨("Hola mundo"), 0, 10, 50, 20⟩ : Line) (by simp)
    (by
      unfold bodyLineB
      refine (Bool.and_eq_true _ _).mpr ⟨?_, ?_⟩
      · decide
      · rw [decide_eq_true_eq]
        unfold footnoteCutoff
        norm_num)

/-- C9 (confirmed): the lexical-correction filter is a pure function of its
input string; two invocations on equal inputs give equal outputs. The
embedding itself witnesses that the source reads only its fixed module-level
tables and keeps no state between calls. -/
theorem clean_deterministic (s t : String) (h : s = t) :
    clean_spanish_text s = clean_spanish_text t := by
  rw [h]

/-- C9 witness: the theorem applied at a concrete equal pair. -/
theorem clean_deterministic_witness :
    (("hola") : String) = ("hola") ∧ clean_spanish_text ("hola") = clean_spanish_text ("hola") :=
  ⟨rfl, clean_deterministic ("hola") ("hola") rfl⟩

/-- C10 (confirmed): process_file writes nothing in a dry run; an existing
.bak sibling is never overwritten by a run; and when no backup exists, a
modifying run copies the original content to the backup path. -/
theorem process_file_backup_discipline (soup : String → Except String (Nat × String))
    (fs : FS) (path : String) :
    (∀ fsd n, process_file soup true fs path = Except.ok (fsd, n) → fsd = fs) ∧
    (∀ b fs2 n, fsGet fs (path ++ (".bak")) = some b →
      process_file soup false fs path = Except.ok (fs2, n) →
      fsGet fs2 (path ++ (".bak")) = some b) ∧
    (∀ fs2 n, fsGet fs (path ++ (".bak")) = none →
      process_file soup false fs path = Except.ok (fs2, n) → n ≠ 0 →
      fsGet fs2 (path ++ (".bak")) = fsGet fs path) := by
  refine ⟨?_, ?_, ?_⟩
  · intro fsd n h
    unfold process_file at h
    cases hg : fsGet fs path with
    | none => rw [readFS_none fs path hg, exSeq_error] at h; exact absurd h (by simp)
    | some html =>
      rw [readFS_some fs path html hg, exSeq_ok] at h
      cases hs : soup html with
      | error e => rw [hs, exSeq_error] at h; exact absurd h (by simp)
      | ok r =>
        obtain ⟨ch, out⟩ := r
        rw [hs, exSeq_ok] at h
        unfold pfWrite at h
        rw [if_neg (by simp)] at h
        simp at h
        exact h.1.symm
  · intro b fs2 n hb h
    unfold process_file at h
    cases hg : fsGet fs path with
    | none => rw [readFS_none fs path hg, exSeq_error] at h; exact absurd h (by simp)
    | some html =>
      rw [readFS_some fs path html hg, exSeq_ok] at h
      cases hs : soup html with
      | error e => rw [hs, exSeq_error] at h; exact absurd h (by simp)
      | ok r =>
        obtain ⟨ch, out⟩ := r
        rw [hs, exSeq_ok] at h
        unfold pfWrite at h
        by_cases hch : ch = 0
        · rw [if_neg (by simp [hch])] at h
          simp at h
          rw [← h.1, hb]
        · rw [if_pos (by simp [hch])] at h
          rw [hb] at h
          simp only [Option.isSome_some, if_true] at h
          simp at h
          rw [← h.1]
          rw [fsGet_fsSet_ne _ _ _ _ (Ne.symm (bak_ne path))]
          exact hb
  · intro fs2 n hb h hn
    unfold process_file at h
    cases hg : fsGet fs path with
    | none => rw [readFS_none fs path hg, exSeq_error] at h; exact absurd h (by simp)
    | some html =>
      rw [readFS_some fs path html hg, exSeq_ok] at h
      cases hs : soup html with
      | error e => rw [hs, exSeq_error] at h; exact absurd h (by simp)
      | ok r =>
        obtain ⟨ch, out⟩ := r
        rw [hs, exSeq_ok] at h
        unfold pfWrite at h
        by_cases hch : ch = 0
        · rw [if_neg (by simp [hch])] at h
          simp at h
          exact absurd (h.2.symm.trans hch) hn
        · rw [if_pos (by simp [hch])] at h
          rw [hb] at h
          simp only [Option.isSome_none, Bool.false_eq_true, if_false] at h
          simp at h
          rw [← h.1]
          rw [fsGet_fsSet_ne _ _ _ _ (Ne.symm (bak_ne path))]
          rw [fsGet_fsSet_self]

/-- C10 witness: the second part applied to a concrete modifying run over a
file system that already carries a backup. -/
theorem process_file_backup_discipline_witness :
    fsGet (fsSet fs10 ("a.html") ("X!")) ("a.html" ++ (".bak")) = some ("B0") :=
  (process_file_backup_discipline soup10 fs10 ("a.html")).2.1 ("B0")
    (fsSet fs10 ("a.html") ("X!")) 1 (by rfl) (by rfl)
